import Mathlib

/-!
Shallow embedding of the economy / gambling engine of the "Coal"/"Iron"
Discord bot (most complete version: `iron/src/modules/economy.py`).

The `balances` SQLite table (`user_id INTEGER PRIMARY KEY, balance INTEGER
DEFAULT 1000, last_daily TEXT, last_work TEXT`) is modelled as a list of
rows in insertion order.  SQL `SELECT ... WHERE user_id = ?` returns the
first matching row, `UPDATE ... WHERE user_id = ?` rewrites every matching
row, `INSERT` appends.  Randomness (coin flips, dice, reels, robbery draws)
is passed in as explicit parameters, mirroring each `random.*` call site.
Dates and timestamps are modelled as integers (`last_daily` as a day
number, `last_work` as seconds).
-/

namespace Coal

/-- One row of the `balances` table. -/
structure Row where
  user_id : Nat
  balance : Int
  last_daily : Option Int := none
  last_work : Option Int := none
deriving DecidableEq, Repr

/-- `SELECT ... FROM balances WHERE user_id = ?` — first matching row. -/
def selectRow : List Row → Nat → Option Row
  | [], _ => none
  | r :: rs, uid => if r.user_id = uid then some r else selectRow rs uid

/-- `INSERT INTO balances ...` — append a row. -/
def insertRow (db : List Row) (r : Row) : List Row := db ++ [r]

/-- `UPDATE balances SET ... WHERE user_id = ?` — rewrite matching rows. -/
def updateWith (f : Row → Row) : List Row → Nat → List Row
  | [], _ => []
  | r :: rs, uid => (if r.user_id = uid then f r else r) :: updateWith f rs uid

/-- `UPDATE balances SET balance = balance + ? WHERE user_id = ?`. -/
def updateBalance (db : List Row) (uid : Nat) (delta : Int) : List Row :=
  updateWith (fun r => { r with balance := r.balance + delta }) db uid

/-- `UPDATE balances SET balance = balance + ?, last_daily = ? WHERE user_id = ?`. -/
def updateDaily (db : List Row) (uid : Nat) (delta : Int) (today : Int) : List Row :=
  updateWith (fun r => { r with balance := r.balance + delta, last_daily := some today }) db uid

/-- `UPDATE balances SET balance = balance + ?, last_work = ? WHERE user_id = ?`. -/
def updateWork (db : List Row) (uid : Nat) (delta : Int) (now : Int) : List Row :=
  updateWith (fun r => { r with balance := r.balance + delta, last_work := some now }) db uid

/-- `Economy._get_balance`: return the stored balance, creating the row with
the default balance 1000 when absent.  Returns (value, updated table). -/
def getBalance (db : List Row) (uid : Nat) : Int × List Row :=
  match selectRow db uid with
  | some r => (r.balance, db)
  | none => (1000, insertRow db { user_id := uid, balance := 1000 })

/-- `Economy._add_balance`: ensure the row exists, then add `amount`. -/
def addBalance (db : List Row) (uid : Nat) (amount : Int) : List Row :=
  updateBalance (getBalance db uid).2 uid amount

/-- The balance an account would report through `_get_balance` (1000 when no
row exists), without the row-creation side effect. -/
def balView (db : List Row) (uid : Nat) : Int :=
  match selectRow db uid with
  | some r => r.balance
  | none => 1000

/-- All rows recorded for a given account (balance and cooldown columns). -/
def rowsFor : List Row → Nat → List Row
  | [], _ => []
  | r :: rs, uid => if r.user_id = uid then r :: rowsFor rs uid else rowsFor rs uid

/-- Rejection kinds surfaced by the economy commands. -/
inductive EcoError
  | invalidGuess
  | invalidStake
  | selfTarget
  | insufficientFunds
  | invalidDiceCount
  | cooldownActive
  | tooBroke
  | storageError
deriving DecidableEq, Repr

/-- `give` (transfer): self and non-positive amounts are rejected, then the
sender's balance is checked, the recipient's row is ensured to exist, and the
amount is moved by two `UPDATE`s. -/
def give (db : List Row) (author target : Nat) (amount : Int) :
    Except EcoError Unit × List Row :=
  if author = target then (.error .selfTarget, db)
  else if amount ≤ 0 then (.error .invalidStake, db)
  else
    let p := getBalance db author
    if p.1 < amount then (.error .insufficientFunds, p.2)
    else
      let db2 := (getBalance p.2 target).2
      (.ok (), updateBalance (updateBalance db2 author (-amount)) target amount)

/-- `guess.lower()`: character-wise ASCII lowercasing. -/
def strLower (s : String) : String := String.mk (s.data.map Char.toLower)

/-- `coinflip`: the drawn side is `coinHeads` (`random.choice(['heads','tails'])`).
Win pays `+bet`, loss `-bet`, applied as one balance update. -/
def coinflip (db : List Row) (uid : Nat) (guess : String) (bet : Int)
    (coinHeads : Bool) : Except EcoError Unit × List Row :=
  let g := strLower guess
  if ¬ (g = "heads" ∨ g = "tails" ∨ g = "h" ∨ g = "t") then (.error .invalidGuess, db)
  else
    let guessHeads : Bool := g == "heads" || g == "h"
    if bet ≤ 0 then (.error .invalidStake, db)
    else
      let p := getBalance db uid
      if p.1 < bet then (.error .insufficientFunds, p.2)
      else
        let delta := if guessHeads == coinHeads then bet else -bet
        (.ok (), updateBalance p.2 uid delta)

/-- The dice drawn by `roll`: `[random.randint(1, 6) for _ in range(dice)]`,
with the i-th draw supplied by `rng i`. -/
def diceRolls (rng : Nat → Nat) (n : Nat) : List Nat :=
  (List.range n).map rng

/-- `roll`: 1–20 dice, positive bet, funds check; win iff the dice sum reaches
`dice * 3`, paying `bet * 5`, loss `-bet`, applied as one balance update. -/
def roll (db : List Row) (uid : Nat) (dice : Nat) (bet : Int) (rng : Nat → Nat) :
    Except EcoError Unit × List Row :=
  if dice < 1 ∨ dice > 20 then (.error .invalidDiceCount, db)
  else if bet ≤ 0 then (.error .invalidStake, db)
  else
    let p := getBalance db uid
    if p.1 < bet then (.error .insufficientFunds, p.2)
    else
      let total := (diceRolls rng dice).sum
      let delta := if dice * 3 ≤ total then bet * 5 else -bet
      (.ok (), updateBalance p.2 uid delta)

/-- The 9-symbol slot alphabet `['⭐','🍒','🍋','🍊','🍉','7️⃣','💰','💎','💵']`. -/
inductive Symbol
  | star
  | cherry
  | lemon
  | orange
  | melon
  | seven
  | moneybag
  | gem
  | cash
deriving DecidableEq, Repr

/-- `reels.count('⭐')`. -/
def starCount (a b c : Symbol) : Nat := [a, b, c].count Symbol.star

/-- `len(set(reels))`: number of distinct symbols on the three reels. -/
def distinctCount (a b c : Symbol) : Nat := [a, b, c].dedup.length

/-- The `slots` payout tier table, in the source's evaluation order. -/
def slotMultiplier (a b c : Symbol) : Int :=
  if starCount a b c = 3 then 100
  else if starCount a b c = 0 ∧ a = b ∧ b = c then 50
  else if starCount a b c = 1 ∧ distinctCount a b c = 2 then 10
  else if starCount a b c = 2 then 5
  else if starCount a b c = 1 then 3
  else if a = b ∨ b = c ∨ a = c then 2
  else 0

/-- `slots`: bet must be in 1..3000 and covered by the balance; the reels
`a b c` are the three `random.choice(symbols)` draws.  The single balance
update applies `bet * multiplier - bet` on a win and `-bet` otherwise. -/
def slots (db : List Row) (uid : Nat) (bet : Int) (a b c : Symbol) :
    Except EcoError Unit × List Row :=
  if bet ≤ 0 ∨ bet > 3000 then (.error .invalidStake, db)
  else
    let p := getBalance db uid
    if p.1 < bet then (.error .insufficientFunds, p.2)
    else
      let m := slotMultiplier a b c
      let delta := if m ≠ 0 then bet * m - bet else -bet
      (.ok (), updateBalance p.2 uid delta)

/-- `daily`: ensure the row exists, reject when `today <= last_daily`,
otherwise credit 500 and stamp `last_daily := today` in one update. -/
def daily (db : List Row) (uid : Nat) (today : Int) :
    Except EcoError Unit × List Row :=
  let db1 := (getBalance db uid).2
  match selectRow db1 uid with
  | none => (.error .storageError, db1)
  | some r =>
    match r.last_daily with
    | some d =>
      if today ≤ d then (.error .cooldownActive, db1)
      else (.ok (), updateDaily db1 uid 500 today)
    | none => (.ok (), updateDaily db1 uid 500 today)

/-- `work`: ensure the row exists, reject within 3600 s of `last_work`,
otherwise apply `±earnings` (win iff `outcome > 25` on a 1..100 draw,
`earnings` drawn from 50..500) and stamp `last_work := now`. -/
def work (db : List Row) (uid : Nat) (now : Int) (earnings : Int) (outcome : Nat) :
    Except EcoError Unit × List Row :=
  let db1 := (getBalance db uid).2
  match selectRow db1 uid with
  | none => (.error .storageError, db1)
  | some r =>
    match r.last_work with
    | some t =>
      if now - t < 3600 then (.error .cooldownActive, db1)
      else
        let delta := if 25 < outcome then earnings else -earnings
        (.ok (), updateWork db1 uid delta now)
    | none =>
      let delta := if 25 < outcome then earnings else -earnings
      (.ok (), updateWork db1 uid delta now)

/-- `rob`: no self-robbery; targets holding fewer than 100 coins are refused.
`outcome` is the 1..100 draw (`caught` iff `outcome ≤ 75`), `loss` the
100..1000 penalty draw, `steal` the `randint(1, min(target_bal, 500))` draw.
Caught: the attacker loses `min(loss, attacker_balance)`.  Success: `steal`
moves from the target to the attacker. -/
def rob (db : List Row) (attacker target : Nat) (outcome : Nat) (loss steal : Int) :
    Except EcoError Unit × List Row :=
  if target = attacker then (.error .selfTarget, db)
  else
    let p := getBalance db target
    if p.1 < 100 then (.error .tooBroke, p.2)
    else if outcome ≤ 75 then
      let q := getBalance p.2 attacker
      (.ok (), addBalance q.2 attacker (-(min loss q.1)))
    else
      (.ok (), addBalance (addBalance p.2 target (-steal)) attacker steal)

/-! ### Basic lemmas about the table operations -/

theorem selectRow_updateWith_ne (f : Row → Row) (hf : ∀ r, (f r).user_id = r.user_id)
    {u v : Nat} (h : u ≠ v) : ∀ db, selectRow (updateWith f db v) u = selectRow db u := by
  intro db
  induction db with
  | nil => rfl
  | cons r rs ih =>
    simp only [updateWith, selectRow]
    by_cases hv : r.user_id = v
    · have h1 : ¬ (f r).user_id = u := by rw [hf r, hv]; exact fun e => h e.symm
      have h2 : ¬ r.user_id = u := by rw [hv]; exact fun e => h e.symm
      rw [if_pos hv, if_neg h1, if_neg h2, ih]
    · rw [if_neg hv]
      by_cases hu : r.user_id = u
      · rw [if_pos hu, if_pos hu]
      · rw [if_neg hu, if_neg hu, ih]

theorem selectRow_updateWith_self (f : Row → Row) (hf : ∀ r, (f r).user_id = r.user_id)
    (u : Nat) : ∀ db, selectRow (updateWith f db u) u = (selectRow db u).map f := by
  intro db
  induction db with
  | nil => rfl
  | cons r rs ih =>
    simp only [updateWith, selectRow]
    by_cases hu : r.user_id = u
    · have h1 : (f r).user_id = u := by rw [hf r]; exact hu
      rw [if_pos hu, if_pos h1, if_pos hu]
      rfl
    · rw [if_neg hu, if_neg hu, if_neg hu, ih]

theorem rowsFor_updateWith_ne (f : Row → Row) (hf : ∀ r, (f r).user_id = r.user_id)
    {u v : Nat} (h : u ≠ v) : ∀ db, rowsFor (updateWith f db v) u = rowsFor db u := by
  intro db
  induction db with
  | nil => rfl
  | cons r rs ih =>
    simp only [updateWith, rowsFor]
    by_cases hv : r.user_id = v
    · have h1 : ¬ (f r).user_id = u := by rw [hf r, hv]; exact fun e => h e.symm
      have h2 : ¬ r.user_id = u := by rw [hv]; exact fun e => h e.symm
      rw [if_pos hv, if_neg h1, if_neg h2, ih]
    · rw [if_neg hv]
      by_cases hu : r.user_id = u
      · rw [if_pos hu, if_pos hu, ih]
      · rw [if_neg hu, if_neg hu, ih]

theorem selectRow_append_of_none {db₁ : List Row} {u : Nat}
    (h : selectRow db₁ u = none) (db₂ : List Row) :
    selectRow (db₁ ++ db₂) u = selectRow db₂ u := by
  induction db₁ with
  | nil => rfl
  | cons r rs ih =>
    simp only [selectRow, List.cons_append] at h ⊢
    by_cases hu : r.user_id = u
    · rw [if_pos hu] at h; exact absurd h (by simp)
    · rw [if_neg hu] at h ⊢; exact ih h

theorem selectRow_append_of_some {db₁ : List Row} {u : Nat} {r : Row}
    (h : selectRow db₁ u = some r) (db₂ : List Row) :
    selectRow (db₁ ++ db₂) u = some r := by
  induction db₁ with
  | nil => exact absurd h (by simp [selectRow])
  | cons x xs ih =>
    simp only [selectRow, List.cons_append] at h ⊢
    by_cases hu : x.user_id = u
    · rw [if_pos hu] at h ⊢; exact h
    · rw [if_neg hu] at h ⊢; exact ih h

theorem rowsFor_append (db₁ db₂ : List Row) (u : Nat) :
    rowsFor (db₁ ++ db₂) u = rowsFor db₁ u ++ rowsFor db₂ u := by
  induction db₁ with
  | nil => rfl
  | cons r rs ih =>
    show rowsFor (r :: (rs ++ db₂)) u = rowsFor (r :: rs) u ++ rowsFor db₂ u
    by_cases hu : r.user_id = u
    · simp only [rowsFor, if_pos hu, ih]
      rfl
    · simp only [rowsFor, if_neg hu, ih]

theorem rowsFor_of_selectRow_none {db : List Row} {u : Nat}
    (h : selectRow db u = none) : rowsFor db u = [] := by
  induction db with
  | nil => rfl
  | cons r rs ih =>
    by_cases hu : r.user_id = u
    · exact absurd h (by simp [selectRow, if_pos hu])
    · simp only [selectRow, if_neg hu] at h
      simp only [rowsFor, if_neg hu]
      exact ih h

theorem selectRow_singleton (r : Row) (u : Nat) :
    selectRow [r] u = if r.user_id = u then some r else none := rfl

theorem rowsFor_singleton (r : Row) (u : Nat) :
    rowsFor [r] u = if r.user_id = u then [r] else [] := by
  simp only [rowsFor]

/-! ### Specializations to the three UPDATE statements -/

theorem selectRow_updateBalance_ne {u v : Nat} (h : u ≠ v) (db : List Row) (δ : Int) :
    selectRow (updateBalance db v δ) u = selectRow db u := by
  unfold updateBalance
  exact selectRow_updateWith_ne (fun r => { r with balance := r.balance + δ }) (fun _ => rfl) h db

theorem selectRow_updateBalance_self (db : List Row) (u : Nat) (δ : Int) :
    selectRow (updateBalance db u δ) u
      = (selectRow db u).map (fun r => { r with balance := r.balance + δ }) := by
  unfold updateBalance
  exact selectRow_updateWith_self (fun r => { r with balance := r.balance + δ }) (fun _ => rfl) u db

theorem rowsFor_updateBalance_ne {u v : Nat} (h : u ≠ v) (db : List Row) (δ : Int) :
    rowsFor (updateBalance db v δ) u = rowsFor db u := by
  unfold updateBalance
  exact rowsFor_updateWith_ne (fun r => { r with balance := r.balance + δ }) (fun _ => rfl) h db

theorem selectRow_updateDaily_ne {u v : Nat} (h : u ≠ v) (db : List Row) (δ d : Int) :
    selectRow (updateDaily db v δ d) u = selectRow db u := by
  unfold updateDaily
  exact selectRow_updateWith_ne (fun r => { r with balance := r.balance + δ, last_daily := some d }) (fun _ => rfl) h db

theorem selectRow_updateDaily_self (db : List Row) (u : Nat) (δ d : Int) :
    selectRow (updateDaily db u δ d) u
      = (selectRow db u).map
          (fun r => { r with balance := r.balance + δ, last_daily := some d }) := by
  unfold updateDaily
  exact selectRow_updateWith_self (fun r => { r with balance := r.balance + δ, last_daily := some d }) (fun _ => rfl) u db

theorem rowsFor_updateDaily_ne {u v : Nat} (h : u ≠ v) (db : List Row) (δ d : Int) :
    rowsFor (updateDaily db v δ d) u = rowsFor db u := by
  unfold updateDaily
  exact rowsFor_updateWith_ne (fun r => { r with balance := r.balance + δ, last_daily := some d }) (fun _ => rfl) h db

theorem rowsFor_updateWork_ne {u v : Nat} (h : u ≠ v) (db : List Row) (δ t : Int) :
    rowsFor (updateWork db v δ t) u = rowsFor db u := by
  unfold updateWork
  exact rowsFor_updateWith_ne (fun r => { r with balance := r.balance + δ, last_work := some t }) (fun _ => rfl) h db

/-! ### `getBalance` and the balance view -/

theorem getBalance_fst (db : List Row) (u : Nat) : (getBalance db u).1 = balView db u := by
  unfold getBalance balView
  cases selectRow db u <;> rfl

theorem getBalance_of_some {db : List Row} {u : Nat} {r : Row}
    (h : selectRow db u = some r) : getBalance db u = (r.balance, db) := by
  unfold getBalance; rw [h]

theorem getBalance_of_none {db : List Row} {u : Nat}
    (h : selectRow db u = none) :
    getBalance db u = (1000, db ++ [{ user_id := u, balance := 1000 }]) := by
  unfold getBalance insertRow; rw [h]

theorem selectRow_getBalance_ne {u v : Nat} (h : u ≠ v) (db : List Row) :
    selectRow (getBalance db v).2 u = selectRow db u := by
  cases hs : selectRow db v with
  | some r => rw [getBalance_of_some hs]
  | none =>
    rw [getBalance_of_none hs]
    cases hu : selectRow db u with
    | some r => exact selectRow_append_of_some hu _
    | none =>
      rw [selectRow_append_of_none hu, selectRow_singleton]
      exact if_neg (fun e => h e.symm)

theorem rowsFor_getBalance_ne {u v : Nat} (h : u ≠ v) (db : List Row) :
    rowsFor (getBalance db v).2 u = rowsFor db u := by
  cases hs : selectRow db v with
  | some r => rw [getBalance_of_some hs]
  | none =>
    rw [getBalance_of_none hs, rowsFor_append, rowsFor_singleton,
      if_neg (fun e => h e.symm), List.append_nil]

theorem balView_getBalance_snd (db : List Row) (v u : Nat) :
    balView (getBalance db v).2 u = balView db u := by
  by_cases huv : u = v
  · subst huv
    cases hs : selectRow db u with
    | some r => rw [getBalance_of_some hs]
    | none =>
      rw [getBalance_of_none hs]
      unfold balView
      rw [selectRow_append_of_none hs, hs, selectRow_singleton, if_pos rfl]
  · unfold balView
    rw [selectRow_getBalance_ne huv]

theorem balView_updateBalance_ne {u v : Nat} (h : u ≠ v) (db : List Row) (δ : Int) :
    balView (updateBalance db v δ) u = balView db u := by
  unfold balView
  rw [selectRow_updateBalance_ne h]

theorem balView_updateBalance_of_some {db : List Row} {u : Nat} {r : Row}
    (h : selectRow db u = some r) (δ : Int) :
    balView (updateBalance db u δ) u = balView db u + δ := by
  unfold balView
  rw [selectRow_updateBalance_self, h]
  rfl

theorem balView_addBalance_self (db : List Row) (u : Nat) (δ : Int) :
    balView (addBalance db u δ) u = balView db u + δ := by
  unfold addBalance
  cases hs : selectRow db u with
  | some r =>
    rw [getBalance_of_some hs, balView_updateBalance_of_some hs]
  | none =>
    rw [getBalance_of_none hs]
    have hsel : selectRow (db ++ [{ user_id := u, balance := 1000 }]) u
        = some { user_id := u, balance := 1000 } := by
      rw [selectRow_append_of_none hs, selectRow_singleton, if_pos rfl]
    rw [balView_updateBalance_of_some hsel]
    unfold balView
    rw [hsel, hs]

theorem balView_addBalance_ne {u v : Nat} (h : u ≠ v) (db : List Row) (δ : Int) :
    balView (addBalance db v δ) u = balView db u := by
  unfold addBalance
  rw [balView_updateBalance_ne h]
  unfold balView
  rw [selectRow_getBalance_ne h]

theorem rowsFor_addBalance_ne {u v : Nat} (h : u ≠ v) (db : List Row) (δ : Int) :
    rowsFor (addBalance db v δ) u = rowsFor db u := by
  unfold addBalance
  rw [rowsFor_updateBalance_ne h, rowsFor_getBalance_ne h]

theorem selectRow_getBalance_self (db : List Row) (u : Nat) :
    ∃ r, selectRow (getBalance db u).2 u = some r ∧ r.balance = balView db u := by
  cases hs : selectRow db u with
  | some r =>
    rw [getBalance_of_some hs]
    exact ⟨r, hs, by unfold balView; rw [hs]⟩
  | none =>
    rw [getBalance_of_none hs]
    refine ⟨{ user_id := u, balance := 1000 }, ?_, by unfold balView; rw [hs]⟩
    rw [selectRow_append_of_none hs, selectRow_singleton]
    exact if_pos rfl

theorem balView_updateDaily_of_some {db : List Row} {u : Nat} {r : Row}
    (h : selectRow db u = some r) (δ d : Int) :
    balView (updateDaily db u δ d) u = balView db u + δ := by
  unfold balView
  rw [selectRow_updateDaily_self, h]
  rfl

/-! ### Concrete tables used by the witnesses -/

def dbW : List Row :=
  [{ user_id := 1, balance := 1000 }, { user_id := 2, balance := 300 }]

def dbPoor : List Row := [{ user_id := 7, balance := 50 }]

/-! ### The claims -/

/-- C8: calling `get_balance` on an account with no record creates exactly one
record with the default balance 1000 and returns 1000; an immediately repeated
call returns the same 1000 and leaves the table unchanged (creates no second
record): lazy account creation via `get_balance` is idempotent. -/
theorem C8_getBalance_idempotent (db : List Row) (uid : Nat)
    (h : selectRow db uid = none) :
    (getBalance db uid).1 = 1000 ∧
    rowsFor db uid = [] ∧
    (rowsFor (getBalance db uid).2 uid).length = 1 ∧
    getBalance (getBalance db uid).2 uid = (1000, (getBalance db uid).2) := by
  have h1 := getBalance_of_none h
  refine ⟨by rw [h1], rowsFor_of_selectRow_none h, ?_, ?_⟩
  · rw [h1]
    show (rowsFor (db ++ [{ user_id := uid, balance := 1000 }]) uid).length = 1
    rw [rowsFor_append, rowsFor_of_selectRow_none h, rowsFor_singleton, if_pos rfl]
    rfl
  · have hsel : selectRow (getBalance db uid).2 uid
        = some { user_id := uid, balance := 1000 } := by
      rw [h1]
      show selectRow (db ++ [{ user_id := uid, balance := 1000 }]) uid
        = some { user_id := uid, balance := 1000 }
      rw [selectRow_append_of_none h, selectRow_singleton]
      exact if_pos rfl
    exact getBalance_of_some hsel

/-- Witness for C8 at the empty table and account 42. -/
theorem C8_witness :
    (getBalance [] 42).1 = 1000 ∧
    rowsFor ([] : List Row) 42 = [] ∧
    (rowsFor (getBalance [] 42).2 42).length = 1 ∧
    getBalance (getBalance [] 42).2 42 = (1000, (getBalance [] 42).2) :=
  C8_getBalance_idempotent [] 42 rfl

/-- C1: a successful `transfer(a, b, amount)` between two existing accounts
with `a ≠ b` decrements the sender and increments the recipient by exactly
`amount`, so the sum of the two balances is conserved. -/
theorem C1_give_conservation {db db' : List Row} {a b : Nat} {amount : Int}
    (hab : a ≠ b) {ra rb : Row}
    (ha : selectRow db a = some ra) (hb : selectRow db b = some rb)
    (hsucc : give db a b amount = (.ok (), db')) :
    balView db' a = balView db a - amount ∧
    balView db' b = balView db b + amount ∧
    balView db' a + balView db' b = balView db a + balView db b := by
  simp only [give, if_neg hab, getBalance_of_some ha, getBalance_of_some hb] at hsucc
  by_cases h0 : amount ≤ 0
  · rw [if_pos h0] at hsucc
    simp at hsucc
  · rw [if_neg h0] at hsucc
    by_cases h1 : ra.balance < amount
    · rw [if_pos h1] at hsucc
      simp at hsucc
    · rw [if_neg h1] at hsucc
      obtain rfl : updateBalance (updateBalance db a (-amount)) b amount = db' :=
        congrArg Prod.snd hsucc
      have hA : balView (updateBalance (updateBalance db a (-amount)) b amount) a
          = balView db a - amount := by
        rw [balView_updateBalance_ne hab, balView_updateBalance_of_some ha]
        ring
      have hbv : balView (updateBalance db a (-amount)) b = balView db b :=
        balView_updateBalance_ne (fun e => hab e.symm) db (-amount)
      have hbsel : selectRow (updateBalance db a (-amount)) b = some rb := by
        rw [selectRow_updateBalance_ne (fun e => hab e.symm)]
        exact hb
      have hB : balView (updateBalance (updateBalance db a (-amount)) b amount) b
          = balView db b + amount := by
        rw [balView_updateBalance_of_some hbsel, hbv]
      exact ⟨hA, hB, by rw [hA, hB]; ring⟩

/-- Witness for C1: transferring 250 between the two accounts of `dbW`. -/
theorem C1_witness :
    balView (give dbW 1 2 250).2 1 = balView dbW 1 - 250 ∧
    balView (give dbW 1 2 250).2 2 = balView dbW 2 + 250 ∧
    balView (give dbW 1 2 250).2 1 + balView (give dbW 1 2 250).2 2
      = balView dbW 1 + balView dbW 2 :=
  @C1_give_conservation dbW ((give dbW 1 2 250).2) 1 2 250 (by decide)
    { user_id := 1, balance := 1000 } { user_id := 2, balance := 300 }
    (by decide) (by decide) rfl

/-- C3: for every account and each wager game (coinflip, dice roll, slots),
a wager with an otherwise valid stake strictly greater than the account's
current balance is rejected with `insufficientFunds` and every account's
balance is left unchanged. -/
theorem C3_wager_insufficient (db : List Row) (uid : Nat) :
    (∀ guess bet coinHeads,
        (strLower guess = "heads" ∨ strLower guess = "tails" ∨
         strLower guess = "h" ∨ strLower guess = "t") →
        0 < bet → balView db uid < bet →
        (coinflip db uid guess bet coinHeads).1 = .error .insufficientFunds ∧
        ∀ u, balView (coinflip db uid guess bet coinHeads).2 u = balView db u) ∧
    (∀ dice bet rng, 1 ≤ dice → dice ≤ 20 → 0 < bet → balView db uid < bet →
        (roll db uid dice bet rng).1 = .error .insufficientFunds ∧
        ∀ u, balView (roll db uid dice bet rng).2 u = balView db u) ∧
    (∀ bet a b c, 0 < bet → bet ≤ 3000 → balView db uid < bet →
        (slots db uid bet a b c).1 = .error .insufficientFunds ∧
        ∀ u, balView (slots db uid bet a b c).2 u = balView db u) := by
  refine ⟨?_, ?_, ?_⟩
  · intro guess bet coinHeads hg hbet hfunds
    have hc : coinflip db uid guess bet coinHeads
        = (.error .insufficientFunds, (getBalance db uid).2) := by
      simp only [coinflip]
      rw [if_neg (not_not_intro hg), if_neg (not_le.mpr hbet),
        if_pos (by rw [getBalance_fst]; exact hfunds)]
    rw [hc]
    exact ⟨rfl, fun u => balView_getBalance_snd db uid u⟩
  · intro dice bet rng h1 h2 hbet hfunds
    have hc : roll db uid dice bet rng
        = (.error .insufficientFunds, (getBalance db uid).2) := by
      simp only [roll]
      rw [if_neg (by push_neg; exact ⟨h1, h2⟩), if_neg (not_le.mpr hbet),
        if_pos (by rw [getBalance_fst]; exact hfunds)]
    rw [hc]
    exact ⟨rfl, fun u => balView_getBalance_snd db uid u⟩
  · intro bet a b c hbet hcap hfunds
    have hc : slots db uid bet a b c
        = (.error .insufficientFunds, (getBalance db uid).2) := by
      simp only [slots]
      rw [if_neg (by push_neg; exact ⟨hbet, hcap⟩),
        if_pos (by rw [getBalance_fst]; exact hfunds)]
    rw [hc]
    exact ⟨rfl, fun u => balView_getBalance_snd db uid u⟩

/-- Witness for C3: account 7 of `dbPoor` holds 50 coins and wagers 60 at
each of the three games. -/
theorem C3_witness :
    ((coinflip dbPoor 7 "heads" 60 true).1 = .error .insufficientFunds ∧
      ∀ u, balView (coinflip dbPoor 7 "heads" 60 true).2 u = balView dbPoor u) ∧
    ((roll dbPoor 7 2 60 (fun _ => 6)).1 = .error .insufficientFunds ∧
      ∀ u, balView (roll dbPoor 7 2 60 (fun _ => 6)).2 u = balView dbPoor u) ∧
    ((slots dbPoor 7 60 .star .star .star).1 = .error .insufficientFunds ∧
      ∀ u, balView (slots dbPoor 7 60 .star .star .star).2 u = balView dbPoor u) :=
  ⟨(C3_wager_insufficient dbPoor 7).1 "heads" 60 true (Or.inl (by decide))
     (by decide) (by decide),
   (C3_wager_insufficient dbPoor 7).2.1 2 60 (fun _ => 6) (by decide) (by decide)
     (by decide) (by decide),
   (C3_wager_insufficient dbPoor 7).2.2 60 .star .star .star (by decide) (by decide)
     (by decide)⟩

/-- C4: `transfer` rejects a self-transfer and a non-positive amount without
touching the table, fails with `insufficientFunds` when the sender's balance
is short of the amount leaving every balance unchanged, and on success with an
absent recipient first creates the recipient at the default balance 1000 and
then adds the amount. -/
theorem C4_give_checks (db : List Row) (a b : Nat) (amount : Int) :
    (a = b → give db a b amount = (.error .selfTarget, db)) ∧
    (a ≠ b → amount ≤ 0 → give db a b amount = (.error .invalidStake, db)) ∧
    (a ≠ b → 0 < amount → balView db a < amount →
      (give db a b amount).1 = .error .insufficientFunds ∧
      ∀ u, balView (give db a b amount).2 u = balView db u) ∧
    (a ≠ b → 0 < amount → amount ≤ balView db a → selectRow db b = none →
      (give db a b amount).1 = .ok () ∧
      (∃ r, selectRow (give db a b amount).2 b = some r ∧
        r.balance = 1000 + amount) ∧
      balView (give db a b amount).2 b = 1000 + amount ∧
      balView (give db a b amount).2 a = balView db a - amount) := by
  refine ⟨?_, ?_, ?_, ?_⟩
  · intro h
    simp only [give, if_pos h]
  · intro hab h0
    simp only [give, if_neg hab, if_pos h0]
  · intro hab h0 hfunds
    have hc : give db a b amount
        = (.error .insufficientFunds, (getBalance db a).2) := by
      simp only [give]
      rw [if_neg hab, if_neg (not_le.mpr h0),
        if_pos (by rw [getBalance_fst]; exact hfunds)]
    rw [hc]
    exact ⟨rfl, fun u => balView_getBalance_snd db a u⟩
  · intro hab h0 hfunds hbnone
    obtain ⟨ra, hra, hrab⟩ := selectRow_getBalance_self db a
    have hb1 : selectRow (getBalance db a).2 b = none := by
      rw [selectRow_getBalance_ne (fun e => hab e.symm)]
      exact hbnone
    have hc : give db a b amount
        = (.ok (), updateBalance (updateBalance
            ((getBalance db a).2 ++ [{ user_id := b, balance := 1000 }])
            a (-amount)) b amount) := by
      simp only [give]
      rw [if_neg hab, if_neg (not_le.mpr h0),
        if_neg (by rw [getBalance_fst]; exact not_lt.mpr hfunds),
        getBalance_of_none hb1]
    have hbrow : selectRow ((getBalance db a).2 ++ [{ user_id := b, balance := 1000 }]) b
        = some { user_id := b, balance := 1000 } := by
      rw [selectRow_append_of_none hb1, selectRow_singleton]
      exact if_pos rfl
    have hbrow2 : selectRow (updateBalance
        ((getBalance db a).2 ++ [{ user_id := b, balance := 1000 }]) a (-amount)) b
        = some { user_id := b, balance := 1000 } := by
      rw [selectRow_updateBalance_ne (fun e => hab e.symm)]
      exact hbrow
    have harow : selectRow ((getBalance db a).2 ++ [{ user_id := b, balance := 1000 }]) a
        = some ra := by
      rw [selectRow_append_of_some hra]
    refine ⟨by rw [hc], ?_, ?_, ?_⟩
    · rw [hc]
      refine ⟨{ user_id := b, balance := 1000 + amount }, ?_, rfl⟩
      show selectRow (updateBalance (updateBalance
          ((getBalance db a).2 ++ [{ user_id := b, balance := 1000 }]) a (-amount))
          b amount) b = _
      rw [selectRow_updateBalance_self, hbrow2]
      rfl
    · rw [hc]
      show balView (updateBalance (updateBalance
          ((getBalance db a).2 ++ [{ user_id := b, balance := 1000 }]) a (-amount))
          b amount) b = 1000 + amount
      rw [balView_updateBalance_of_some hbrow2]
      unfold balView
      rw [hbrow2]
    · rw [hc]
      show balView (updateBalance (updateBalance
          ((getBalance db a).2 ++ [{ user_id := b, balance := 1000 }]) a (-amount))
          b amount) a = balView db a - amount
      have hv : balView ((getBalance db a).2 ++ [{ user_id := b, balance := 1000 }]) a
          = balView db a := by
        unfold balView
        rw [harow]
        exact hrab
      rw [balView_updateBalance_ne hab, balView_updateBalance_of_some harow, hv]
      ring

/-- Witness for C4: the insufficient-funds rejection and the absent-recipient
success, both from account 7 of `dbPoor` (balance 50). -/
theorem C4_witness :
    ((give dbPoor 7 9 60).1 = .error .insufficientFunds ∧
      ∀ u, balView (give dbPoor 7 9 60).2 u = balView dbPoor u) ∧
    ((give dbPoor 7 9 40).1 = .ok () ∧
      (∃ r, selectRow (give dbPoor 7 9 40).2 9 = some r ∧ r.balance = 1000 + 40) ∧
      balView (give dbPoor 7 9 40).2 9 = 1000 + 40 ∧
      balView (give dbPoor 7 9 40).2 7 = balView dbPoor 7 - 40) :=
  ⟨(C4_give_checks dbPoor 7 9 60).2.2.1 (by decide) (by decide) (by decide),
   (C4_give_checks dbPoor 7 9 40).2.2.2 (by decide) (by decide) (by decide) rfl⟩

/-- C2: with a valid stake `s` covered by the balance and a fixed reel
outcome, `slots` succeeds and the player's net balance change is
`s * (m - 1)` where `m` is the tier multiplier of the reels; the tiers are
jackpot 100 (three stars), non-star triple 50, wild match 10, two stars 5,
one star 3, pair 2, and 0 for no match (net `-s`). -/
theorem C2_slots_payout {db : List Row} {uid : Nat} {bet : Int} (a b c : Symbol)
    (hbet : 0 < bet) (hcap : bet ≤ 3000) (hfunds : bet ≤ balView db uid) :
    (slots db uid bet a b c).1 = .ok () ∧
    balView (slots db uid bet a b c).2 uid - balView db uid
      = bet * (slotMultiplier a b c - 1) ∧
    slotMultiplier .star .star .star = 100 ∧
    (∀ s : Symbol, s ≠ .star → slotMultiplier s s s = 50) ∧
    slotMultiplier .star .cherry .cherry = 10 ∧
    slotMultiplier .star .star .cherry = 5 ∧
    slotMultiplier .star .cherry .lemon = 3 ∧
    slotMultiplier .cherry .cherry .lemon = 2 ∧
    slotMultiplier .cherry .lemon .orange = 0 := by
  have hc : slots db uid bet a b c
      = (.ok (), updateBalance (getBalance db uid).2 uid
          (if slotMultiplier a b c ≠ 0 then bet * slotMultiplier a b c - bet
           else -bet)) := by
    simp only [slots]
    rw [if_neg (by push_neg; exact ⟨hbet, hcap⟩),
      if_neg (by rw [getBalance_fst]; exact not_lt.mpr hfunds)]
  have htriple : ∀ s : Symbol, s ≠ .star → slotMultiplier s s s = 50 := by
    intro s hs
    cases s
    · exact absurd rfl hs
    all_goals decide
  refine ⟨by rw [hc], ?_, by decide, htriple, by decide, by decide, by decide,
    by decide, by decide⟩
  obtain ⟨r, hr, -⟩ := selectRow_getBalance_self db uid
  rw [hc]
  show balView (updateBalance (getBalance db uid).2 uid
      (if slotMultiplier a b c ≠ 0 then bet * slotMultiplier a b c - bet
       else -bet)) uid - balView db uid = bet * (slotMultiplier a b c - 1)
  rw [balView_updateBalance_of_some hr, balView_getBalance_snd]
  by_cases hm : slotMultiplier a b c = 0
  · rw [if_neg (not_not_intro hm), hm]
    ring
  · rw [if_pos hm]
    ring

/-- Witness for C2: stake 100 on three stars from a 1000-coin account — the
net change is `100 * (100 - 1) = 9900`. -/
theorem C2_witness :
    (slots dbW 1 100 .star .star .star).1 = .ok () ∧
    balView (slots dbW 1 100 .star .star .star).2 1 - balView dbW 1
      = 100 * (slotMultiplier .star .star .star - 1) ∧
    slotMultiplier .star .star .star = 100 ∧
    (∀ s : Symbol, s ≠ .star → slotMultiplier s s s = 50) ∧
    slotMultiplier .star .cherry .cherry = 10 ∧
    slotMultiplier .star .star .cherry = 5 ∧
    slotMultiplier .star .cherry .lemon = 3 ∧
    slotMultiplier .cherry .cherry .lemon = 2 ∧
    slotMultiplier .cherry .lemon .orange = 0 :=
  @C2_slots_payout dbW 1 100 .star .star .star
    (by decide) (by decide) (by decide)

/-- C5 counterexample: in the source, a dice win credits `bet * 5` with no
prior debit of the stake, so with one die rolling 6 (a win: 6 ≥ 1·3) at stake
100 the balance moves from 1000 to 1500 — a net change of +500, not the
+4·100 = +400 the claim states. -/
theorem C5_counterexample :
    roll [{ user_id := 1, balance := 1000 }] 1 1 100 (fun _ => 6)
      = (.ok (), [{ user_id := 1, balance := 1500 }]) ∧
    ¬ ((1500 : Int) - 1000 = 4 * 100) := by
  exact ⟨rfl, by decide⟩

/-- C5 as amended: `roll` with `1 ≤ N ≤ 20` dice and a covered positive stake
draws exactly `N` six-sided dice and wins iff their sum is at least `N * 3`;
a win credits `bet * 5` (no stake was debited beforehand), so the net balance
change is `+5*stake` on a win and `-stake` on a loss. -/
theorem C5_roll_spec {db : List Row} {uid : Nat} {dice : Nat} {bet : Int}
    {rng : Nat → Nat}
    (h1 : 1 ≤ dice) (h2 : dice ≤ 20) (hbet : 0 < bet)
    (hrng : ∀ i, 1 ≤ rng i ∧ rng i ≤ 6)
    (hfunds : bet ≤ balView db uid) :
    (diceRolls rng dice).length = dice ∧
    (roll db uid dice bet rng).1 = .ok () ∧
    balView (roll db uid dice bet rng).2 uid - balView db uid
      = (if dice * 3 ≤ (diceRolls rng dice).sum then 5 * bet else -bet) := by
  have hc : roll db uid dice bet rng
      = (.ok (), updateBalance (getBalance db uid).2 uid
          (if dice * 3 ≤ (diceRolls rng dice).sum then bet * 5 else -bet)) := by
    simp only [roll]
    rw [if_neg (by push_neg; exact ⟨h1, h2⟩), if_neg (not_le.mpr hbet),
      if_neg (by rw [getBalance_fst]; exact not_lt.mpr hfunds)]
  refine ⟨by simp [diceRolls], by rw [hc], ?_⟩
  obtain ⟨r, hr, -⟩ := selectRow_getBalance_self db uid
  rw [hc]
  show balView (updateBalance (getBalance db uid).2 uid
      (if dice * 3 ≤ (diceRolls rng dice).sum then bet * 5 else -bet)) uid
      - balView db uid
      = (if dice * 3 ≤ (diceRolls rng dice).sum then 5 * bet else -bet)
  rw [balView_updateBalance_of_some hr, balView_getBalance_snd]
  by_cases hw : dice * 3 ≤ (diceRolls rng dice).sum
  · rw [if_pos hw, if_pos hw]
    ring
  · rw [if_neg hw, if_neg hw]
    ring

/-- Witness for C5 (amended): two dice always rolling 6 at stake 100. -/
theorem C5_witness :
    (diceRolls (fun _ => 6) 2).length = 2 ∧
    (roll dbW 1 2 100 (fun _ => 6)).1 = .ok () ∧
    balView (roll dbW 1 2 100 (fun _ => 6)).2 1 - balView dbW 1
      = (if 2 * 3 ≤ (diceRolls (fun _ => 6) 2).sum then 5 * 100 else -100) :=
  @C5_roll_spec dbW 1 2 100 (fun _ => 6) (by decide) (by decide) (by decide)
    (fun i => ⟨by norm_num, by norm_num⟩) (by decide)

/-- A successful `daily` leaves a row for the claimant whose `last_daily` is
the claim day, and credits 500. -/
theorem daily_success_row {db db1 : List Row} {uid : Nat} {d : Int}
    (h : daily db uid d = (.ok (), db1)) :
    ∃ r, selectRow db1 uid = some r ∧ r.last_daily = some d ∧
      balView db1 uid = balView db uid + 500 := by
  cases hs : selectRow db uid with
  | some r0 =>
    simp only [daily, getBalance_of_some hs, hs] at h
    cases hld : r0.last_daily with
    | some d0 =>
      simp only [hld] at h
      by_cases hle : d ≤ d0
      · rw [if_pos hle] at h
        simp at h
      · rw [if_neg hle] at h
        obtain rfl : updateDaily db uid 500 d = db1 := congrArg Prod.snd h
        have hsel2 : selectRow (updateDaily db uid 500 d) uid
            = some { r0 with balance := r0.balance + 500, last_daily := some d } := by
          rw [selectRow_updateDaily_self, hs]
          rfl
        exact ⟨_, hsel2, rfl, balView_updateDaily_of_some hs 500 d⟩
    | none =>
      simp only [hld] at h
      obtain rfl : updateDaily db uid 500 d = db1 := congrArg Prod.snd h
      have hsel2 : selectRow (updateDaily db uid 500 d) uid
          = some { r0 with balance := r0.balance + 500, last_daily := some d } := by
        rw [selectRow_updateDaily_self, hs]
        rfl
      exact ⟨_, hsel2, rfl, balView_updateDaily_of_some hs 500 d⟩
  | none =>
    have hsel : selectRow (db ++ [{ user_id := uid, balance := 1000 }]) uid
        = some { user_id := uid, balance := 1000 } := by
      rw [selectRow_append_of_none hs, selectRow_singleton]
      exact if_pos rfl
    simp only [daily, getBalance_of_none hs, hsel] at h
    obtain rfl :
        updateDaily (db ++ [{ user_id := uid, balance := 1000 }]) uid 500 d = db1 :=
      congrArg Prod.snd h
    have hsel2 : selectRow
        (updateDaily (db ++ [{ user_id := uid, balance := 1000 }]) uid 500 d) uid
        = some { user_id := uid, balance := 1000 + 500, last_daily := some d } := by
      rw [selectRow_updateDaily_self, hsel]
      rfl
    refine ⟨_, hsel2, rfl, ?_⟩
    rw [balView_updateDaily_of_some hsel]
    unfold balView
    rw [hsel, hs]

/-- C6: after a successful `daily` claim on day `d`, a second call on the same
day returns `cooldownActive` and changes nothing; a call on the next day
succeeds, credits the 500-coin reward and stamps `last_daily` to that day —
so an account is never credited the daily reward twice within one day. -/
theorem C6_daily_cooldown {db db1 : List Row} {uid : Nat} {d : Int}
    (hsucc : daily db uid d = (.ok (), db1)) :
    daily db1 uid d = (.error .cooldownActive, db1) ∧
    (daily db1 uid (d + 1)).1 = .ok () ∧
    balView (daily db1 uid (d + 1)).2 uid = balView db1 uid + 500 ∧
    ∃ r, selectRow (daily db1 uid (d + 1)).2 uid = some r ∧
      r.last_daily = some (d + 1) := by
  obtain ⟨r1, hr1, hld, -⟩ := daily_success_row hsucc
  have hsame : daily db1 uid d = (.error .cooldownActive, db1) := by
    simp only [daily, getBalance_of_some hr1, hr1, hld, if_pos (le_refl d)]
  have hnext : daily db1 uid (d + 1)
      = (.ok (), updateDaily db1 uid 500 (d + 1)) := by
    simp only [daily, getBalance_of_some hr1, hr1, hld,
      if_neg (by omega : ¬ d + 1 ≤ d)]
  refine ⟨hsame, by rw [hnext], ?_, ?_⟩
  · rw [hnext]
    exact balView_updateDaily_of_some hr1 500 (d + 1)
  · rw [hnext]
    have hsel2 : selectRow (updateDaily db1 uid 500 (d + 1)) uid
        = some { r1 with balance := r1.balance + 500, last_daily := some (d + 1) } := by
      rw [selectRow_updateDaily_self, hr1]
      rfl
    exact ⟨_, hsel2, rfl⟩

/-- Witness for C6: account 1 of `dbW` claims on day 10. -/
theorem C6_witness :
    daily (daily dbW 1 10).2 1 10 = (.error .cooldownActive, (daily dbW 1 10).2) ∧
    (daily (daily dbW 1 10).2 1 (10 + 1)).1 = .ok () ∧
    balView (daily (daily dbW 1 10).2 1 (10 + 1)).2 1
      = balView (daily dbW 1 10).2 1 + 500 ∧
    ∃ r, selectRow (daily (daily dbW 1 10).2 1 (10 + 1)).2 1 = some r ∧
      r.last_daily = some (10 + 1) :=
  @C6_daily_cooldown dbW ((daily dbW 1 10).2) 1 10 rfl

/-- C7: `rob` is caught exactly on the draws `outcome ≤ 75` — 75 of the 100
equally likely values of the 1..100 draw.  When caught, the attacker loses
`min loss balance` (the 100..1000 penalty draw capped at the attacker's
balance, so a non-negative balance stays non-negative) and the target is
untouched.  On success (`outcome > 75`) the drawn amount
`steal ∈ [1, min (target balance) 500]` moves from the target to the
attacker. -/
theorem C7_rob_spec {db : List Row} {a t : Nat} (outcome : Nat) (loss steal : Int)
    (hat : a ≠ t) (htarget : 100 ≤ balView db t) :
    (((Finset.Icc 1 100).filter (fun k => k ≤ 75)).card = 75 ∧
      (Finset.Icc 1 100).card = 100) ∧
    (outcome ≤ 75 → 100 ≤ loss → loss ≤ 1000 →
      (rob db a t outcome loss steal).1 = .ok () ∧
      balView (rob db a t outcome loss steal).2 a
        = balView db a - min loss (balView db a) ∧
      balView (rob db a t outcome loss steal).2 t = balView db t ∧
      (0 ≤ balView db a → 0 ≤ balView (rob db a t outcome loss steal).2 a)) ∧
    (75 < outcome → 1 ≤ steal → steal ≤ min (balView db t) 500 →
      (rob db a t outcome loss steal).1 = .ok () ∧
      balView (rob db a t outcome loss steal).2 a = balView db a + steal ∧
      balView (rob db a t outcome loss steal).2 t = balView db t - steal) := by
  have hta : ¬ t = a := fun e => hat e.symm
  have hbrT : ∀ u, balView (getBalance db t).2 u = balView db u :=
    balView_getBalance_snd db t
  refine ⟨⟨by decide, by decide⟩, ?_, ?_⟩
  · intro hc _ _
    have hq1 : (getBalance (getBalance db t).2 a).1 = balView db a := by
      rw [getBalance_fst, hbrT]
    have heq : rob db a t outcome loss steal
        = (.ok (), addBalance (getBalance (getBalance db t).2 a).2 a
            (-(min loss (getBalance (getBalance db t).2 a).1))) := by
      simp only [rob]
      rw [if_neg hta, if_neg (by rw [getBalance_fst]; exact not_lt.mpr htarget),
        if_pos hc]
    have hA : balView (rob db a t outcome loss steal).2 a
        = balView db a - min loss (balView db a) := by
      rw [heq]
      show balView (addBalance (getBalance (getBalance db t).2 a).2 a
          (-(min loss (getBalance (getBalance db t).2 a).1))) a = _
      rw [balView_addBalance_self, hq1, balView_getBalance_snd, hbrT]
      ring
    refine ⟨by rw [heq], hA, ?_, ?_⟩
    · rw [heq]
      show balView (addBalance (getBalance (getBalance db t).2 a).2 a
          (-(min loss (getBalance (getBalance db t).2 a).1))) t = balView db t
      rw [balView_addBalance_ne hta, balView_getBalance_snd, hbrT]
    · intro hnn
      rw [hA]
      have := min_le_right loss (balView db a)
      omega
  · intro hc h1 h2
    have heq : rob db a t outcome loss steal
        = (.ok (), addBalance (addBalance (getBalance db t).2 t (-steal)) a steal) := by
      simp only [rob]
      rw [if_neg hta, if_neg (by rw [getBalance_fst]; exact not_lt.mpr htarget),
        if_neg (not_le.mpr hc)]
    refine ⟨by rw [heq], ?_, ?_⟩
    · rw [heq]
      show balView (addBalance (addBalance (getBalance db t).2 t (-steal)) a steal) a
          = balView db a + steal
      rw [balView_addBalance_self, balView_addBalance_ne hat, hbrT]
    · rw [heq]
      show balView (addBalance (addBalance (getBalance db t).2 t (-steal)) a steal) t
          = balView db t - steal
      rw [balView_addBalance_ne hta, balView_addBalance_self, hbrT]
      ring

/-- Witness for C7: attacker 7 of `dbPoor` robs target 1 of `dbW` — both a
caught draw (outcome 10, penalty 200) and a successful draw
(outcome 80, stealing 250). -/
theorem C7_witness :
    (((Finset.Icc 1 100).filter (fun k => k ≤ 75)).card = 75 ∧
      (Finset.Icc 1 100).card = 100) ∧
    ((rob dbW 7 1 10 200 250).1 = .ok () ∧
      balView (rob dbW 7 1 10 200 250).2 7
        = balView dbW 7 - min 200 (balView dbW 7) ∧
      balView (rob dbW 7 1 10 200 250).2 1 = balView dbW 1 ∧
      (0 ≤ balView dbW 7 → 0 ≤ balView (rob dbW 7 1 10 200 250).2 7)) ∧
    ((rob dbW 7 1 80 200 250).1 = .ok () ∧
      balView (rob dbW 7 1 80 200 250).2 7 = balView dbW 7 + 250 ∧
      balView (rob dbW 7 1 80 200 250).2 1 = balView dbW 1 - 250) :=
  ⟨(@C7_rob_spec dbW 7 1 10 200 250 (by decide) (by decide)).1,
   (@C7_rob_spec dbW 7 1 10 200 250 (by decide) (by decide)).2.1
     (by decide) (by decide) (by decide),
   (@C7_rob_spec dbW 7 1 80 200 250 (by decide) (by decide)).2.2
     (by decide) (by decide) (by decide)⟩

/-- C10: `rob` rejects a self-robbery and a target holding fewer than 100
coins; both rejections leave the table exactly as it was and are decided
before — independently of — the caught/success and amount draws. -/
theorem C10_rob_rejects (db : List Row) (a t : Nat) :
    (∀ outcome loss steal, rob db a a outcome loss steal = (.error .selfTarget, db)) ∧
    (t ≠ a → balView db t < 100 →
      ∀ outcome loss steal, rob db a t outcome loss steal = (.error .tooBroke, db)) := by
  constructor
  · intro o l s
    simp [rob]
  · intro hta hlt o l s
    have hsome : ∃ r, selectRow db t = some r ∧ r.balance < 100 := by
      unfold balView at hlt
      rcases hs : selectRow db t with _ | r
      · rw [hs] at hlt
        simp at hlt
      · rw [hs] at hlt
        exact ⟨r, rfl, hlt⟩
    obtain ⟨r, hr, hb⟩ := hsome
    simp only [rob, if_neg hta, getBalance_of_some hr, if_pos hb]

/-- Witness for C10: account 7 of `dbPoor` holds 50 coins, so robbing it is
refused for every draw; a self-robbery is also refused. -/
theorem C10_witness :
    rob dbPoor 5 5 80 500 10 = (.error .selfTarget, dbPoor) ∧
    rob dbPoor 5 7 80 500 10 = (.error .tooBroke, dbPoor) :=
  ⟨(C10_rob_rejects dbPoor 5 5).1 80 500 10,
   (C10_rob_rejects dbPoor 5 7).2 (by decide) (by decide) 80 500 10⟩

/-! ### Frame lemmas: each command touches only the rows of the accounts it
names -/

theorem coinflip_frame {u uid : Nat} (h : u ≠ uid) (db : List Row) (guess : String)
    (bet : Int) (coinHeads : Bool) :
    rowsFor (coinflip db uid guess bet coinHeads).2 u = rowsFor db u := by
  simp only [coinflip]
  split_ifs <;>
    simp [rowsFor_updateBalance_ne h, rowsFor_getBalance_ne h]

theorem roll_frame {u uid : Nat} (h : u ≠ uid) (db : List Row) (dice : Nat)
    (bet : Int) (rng : Nat → Nat) :
    rowsFor (roll db uid dice bet rng).2 u = rowsFor db u := by
  simp only [roll]
  split_ifs <;>
    simp [rowsFor_updateBalance_ne h, rowsFor_getBalance_ne h]

theorem slots_frame {u uid : Nat} (h : u ≠ uid) (db : List Row) (bet : Int)
    (a b c : Symbol) :
    rowsFor (slots db uid bet a b c).2 u = rowsFor db u := by
  simp only [slots]
  split_ifs <;>
    simp [rowsFor_updateBalance_ne h, rowsFor_getBalance_ne h]

theorem give_frame {u a b : Nat} (h1 : u ≠ a) (h2 : u ≠ b) (db : List Row)
    (amount : Int) :
    rowsFor (give db a b amount).2 u = rowsFor db u := by
  simp only [give]
  split_ifs <;>
    simp [rowsFor_updateBalance_ne h1, rowsFor_updateBalance_ne h2,
      rowsFor_getBalance_ne h1, rowsFor_getBalance_ne h2]

theorem daily_frame {u uid : Nat} (h : u ≠ uid) (db : List Row) (today : Int) :
    rowsFor (daily db uid today).2 u = rowsFor db u := by
  simp only [daily]
  split
  · simp [rowsFor_getBalance_ne h]
  · split
    · split_ifs
      · simp [rowsFor_getBalance_ne h]
      · simp [rowsFor_updateDaily_ne h, rowsFor_getBalance_ne h]
    · simp [rowsFor_updateDaily_ne h, rowsFor_getBalance_ne h]

theorem work_frame {u uid : Nat} (h : u ≠ uid) (db : List Row)
    (now earnings : Int) (outcome : Nat) :
    rowsFor (work db uid now earnings outcome).2 u = rowsFor db u := by
  simp only [work]
  split
  · simp [rowsFor_getBalance_ne h]
  · split
    · split_ifs <;> simp [rowsFor_updateWork_ne h, rowsFor_getBalance_ne h]
    · simp [rowsFor_updateWork_ne h, rowsFor_getBalance_ne h]

theorem rob_frame {u a t : Nat} (h1 : u ≠ a) (h2 : u ≠ t) (db : List Row)
    (outcome : Nat) (loss steal : Int) :
    rowsFor (rob db a t outcome loss steal).2 u = rowsFor db u := by
  simp only [rob]
  split_ifs <;>
    simp [rowsFor_addBalance_ne h1, rowsFor_addBalance_ne h2,
      rowsFor_getBalance_ne h1, rowsFor_getBalance_ne h2]

/-- One invocation of an economy command, with its random draws. -/
inductive Op where
  | flipOp (uid : Nat) (guess : String) (bet : Int) (coinHeads : Bool)
  | rollOp (uid : Nat) (dice : Nat) (bet : Int) (rng : Nat → Nat)
  | slotsOp (uid : Nat) (bet : Int) (a b c : Symbol)
  | giveOp (author target : Nat) (amount : Int)
  | dailyOp (uid : Nat) (today : Int)
  | workOp (uid : Nat) (now earnings : Int) (outcome : Nat)
  | robOp (attacker target : Nat) (outcome : Nat) (loss steal : Int)

/-- Run the command against the table. -/
def Op.apply (op : Op) (db : List Row) : Except EcoError Unit × List Row :=
  match op with
  | .flipOp uid guess bet coinHeads => coinflip db uid guess bet coinHeads
  | .rollOp uid dice bet rng => roll db uid dice bet rng
  | .slotsOp uid bet a b c => slots db uid bet a b c
  | .giveOp author target amount => give db author target amount
  | .dailyOp uid today => daily db uid today
  | .workOp uid now earnings outcome => work db uid now earnings outcome
  | .robOp attacker target outcome loss steal => rob db attacker target outcome loss steal

/-- The accounts a command names. -/
def Op.touched : Op → List Nat
  | .flipOp uid _ _ _ => [uid]
  | .rollOp uid _ _ _ => [uid]
  | .slotsOp uid _ _ _ _ => [uid]
  | .giveOp author target _ => [author, target]
  | .dailyOp uid _ => [uid]
  | .workOp uid _ _ _ => [uid]
  | .robOp attacker target _ _ _ => [attacker, target]

/-- C9: every economy operation mutates only the rows of the accounts it
names — for any other account, its full row list (balance and both cooldown
timestamps) is unchanged by the operation. -/
theorem C9_frame (op : Op) (db : List Row) (u : Nat) (hu : u ∉ op.touched) :
    rowsFor (op.apply db).2 u = rowsFor db u := by
  cases op with
  | flipOp uid guess bet coinHeads =>
    have h : u ≠ uid := by simpa [Op.touched] using hu
    exact coinflip_frame h db guess bet coinHeads
  | rollOp uid dice bet rng =>
    have h : u ≠ uid := by simpa [Op.touched] using hu
    exact roll_frame h db dice bet rng
  | slotsOp uid bet a b c =>
    have h : u ≠ uid := by simpa [Op.touched] using hu
    exact slots_frame h db bet a b c
  | giveOp author target amount =>
    have h : u ≠ author ∧ u ≠ target := by simpa [Op.touched] using hu
    exact give_frame h.1 h.2 db amount
  | dailyOp uid today =>
    have h : u ≠ uid := by simpa [Op.touched] using hu
    exact daily_frame h db today
  | workOp uid now earnings outcome =>
    have h : u ≠ uid := by simpa [Op.touched] using hu
    exact work_frame h db now earnings outcome
  | robOp attacker target outcome loss steal =>
    have h : u ≠ attacker ∧ u ≠ target := by simpa [Op.touched] using hu
    exact rob_frame h.1 h.2 db outcome loss steal

/-- Witness for C9: a transfer between accounts 1 and 2 leaves account 7's
rows untouched. -/
theorem C9_witness :
    rowsFor ((Op.giveOp 1 2 30).apply (dbW ++ dbPoor)).2 7
      = rowsFor (dbW ++ dbPoor) 7 :=
  C9_frame (Op.giveOp 1 2 30) (dbW ++ dbPoor) 7 (by decide)

end Coal
